import Mathlib

/-!
Shallow embedding of the amount engine of `src/amount.cc` (the numeric
core of the ledger repository): big-decimal quantities, the commodity
registry, arithmetic, comparison, parsing and formatting.  Machine
integers (`mpz_t`) are modelled as `Int`; truncated GMP division
(`mpz_tdiv_*`) as `Int.tdiv` / `Int.tmod`.  Reference counting and the
bulk-allocation arena are memory-layout concerns and are not modelled;
every cell is treated as uniquely owned (the `ref == 1` path of `_init`
and `_dup`), which is the state produced by ordinary construction and
parsing.
-/

/-- Error kinds surfaced by the engine (`amount_error` in the source,
distinguished by message: "Quoted commodity symbol lacks closing quote"
is a parse error, "Adding/Subtracting amounts with different
commodities" a commodity mismatch, "Divide by zero" a division error). -/
inductive AmountError where
  | ParseError
  | CommodityMismatch
  | DivideByZero
deriving DecidableEq

/-- Commodity style flag bits (`COMMODITY_STYLE_*`).  The numeric values
live in the missing header; only the individual bits matter here.
Modelled from the spec for the default: `COMMODITY_STYLE_DEFAULTS` sets
no bits (prefixed, not separated, not thousands, not European). -/
structure CFlags where
  suffixed : Bool := false
  separated : Bool := false
  thousands : Bool := false
  european : Bool := false
  nomarket : Bool := false
deriving DecidableEq

/-- Bitwise OR of two flag sets (`commodity->flags |= flags`). -/
def CFlags.orFlags (a b : CFlags) : CFlags :=
  ⟨a.suffixed || b.suffixed, a.separated || b.separated,
   a.thousands || b.thousands, a.european || b.european,
   a.nomarket || b.nomarket⟩

/-- A `commodity_t`: symbol, quote bit, display precision and style
flags.  The constructor defaults (precision 0, default flags) are
modelled from the spec ("construct a new Commodity with default
style"); the constructor body is in the missing header. -/
structure Commodity where
  symbol : String
  quote : Bool := false
  precision : Nat := 0
  flags : CFlags := {}
deriving DecidableEq

/-- A `bigint_t` cell: arbitrary-precision value and decimal scale
(`prec`).  `ref`, `flags` and `index` concern sharing and binary
serialization and are not modelled. -/
structure Bigint where
  val : Int
  prec : Nat
deriving DecidableEq

/-- An `amount_t`: optional quantity cell and optional commodity
pointer.  Commodity pointers are modelled as indices into the
registry's list of interned commodities, so pointer identity is index
equality. -/
structure Amount where
  quantity : Option Bigint := none
  commodity : Option Nat := none
deriving DecidableEq

/-- The process-wide commodity registry (`commodity_t::commodities`):
interned commodities in creation order; a commodity's index plays the
role of its address. -/
structure Registry where
  comms : List Commodity
deriving DecidableEq

/-- The null commodity is the first commodity interned:
`initialize_amounts` runs `find_commodity("", true)` on the empty map. -/
def nullCommodityIdent : Nat := 0

/-- Registry state right after `initialize_amounts`: only the null
commodity (empty symbol, default style) is interned. -/
def initRegistry : Registry := ⟨[{ symbol := "" }]⟩

/-- Precision of the commodity an amount points to
(`commodity->precision`).  Dereferencing an absent commodity would be
undefined behaviour in the source; the `none` case is unreachable for
valid amounts and defaults to 0 here. -/
def commodity_precision (r : Registry) (c : Option Nat) : Nat :=
  match c with
  | some i => (r.comms.getD i { symbol := "" }).precision
  | none => 0

/-- Style flags of the commodity an amount points to
(`commodity->flags`); the `none` case is unreachable for valid
amounts. -/
def commodity_flags (r : Registry) (c : Option Nat) : CFlags :=
  match c with
  | some i => (r.comms.getD i { symbol := "" }).flags
  | none => {}

/-- Embeds `mpz_round` (src/amount.cc:118-162).  `quotient` is computed
by the source's `mpz_tdiv_qr` but never used; only the remainder
drives the branch.  `half` is `divexact(10^(vp-rp), 10) * 5`, i.e.
`5 * 10^(vp-rp-1)` (the assert guarantees `vp > rp`). -/
def mpz_round (value : Int) (value_prec round_prec : Nat) : Int :=
  let divisor : Int := 10 ^ (value_prec - round_prec)
  let remainder : Int := Int.tmod value divisor
  let half : Int := 5 * 10 ^ (value_prec - round_prec - 1)
  let out : Int :=
    if remainder < 0 then
      if remainder < -half then value + (-(divisor + remainder))
      else value - remainder
    else
      if half ≤ remainder then value + (divisor - remainder)
      else value - remainder
  Int.tdiv out divisor

/-- The rounding routine as the spec's words describe it: a remainder
of at least `half` in magnitude — the boundary case included on both
signs — rounds away from zero.  Stated over the toward-zero quotient
and remainder, to be compared with `mpz_round`. -/
def round_half_away_from_zero (value : Int) (value_prec round_prec : Nat) : Int :=
  let divisor : Int := 10 ^ (value_prec - round_prec)
  let q : Int := Int.tdiv value divisor
  let r : Int := Int.tmod value divisor
  let half : Int := 5 * 10 ^ (value_prec - round_prec - 1)
  if 0 < r ∧ half ≤ r then q + 1
  else if r < 0 ∧ r ≤ -half then q - 1
  else q

/-- Embeds `amount_t::_resize` (src/amount.cc:346-364) at the cell
level: truncating integer division on downscale, multiplication on
upscale; the no-op case is `prec == quantity->prec`. -/
def bigint_resize (q : Bigint) (prec : Nat) : Bigint :=
  if prec = q.prec then q
  else if prec < q.prec then ⟨Int.tdiv q.val (10 ^ (q.prec - prec)), prec⟩
  else ⟨q.val * 10 ^ (prec - q.prec), prec⟩

/-- Embeds `amount_t::operator+=` (src/amount.cc:367-395): an absent
right operand returns the receiver; an absent receiver copies the
operand; otherwise commodity pointers must agree or the operation
fails, and the lower-scale side is upscaled before the magnitudes are
added. -/
def amount_add (x y : Amount) : Except AmountError Amount :=
  match y.quantity with
  | none => .ok x
  | some yq =>
    match x.quantity with
    | none => .ok { quantity := some yq, commodity := y.commodity }
    | some xq =>
      if x.commodity ≠ y.commodity then .error .CommodityMismatch
      else if xq.prec = yq.prec then
        .ok { quantity := some ⟨xq.val + yq.val, xq.prec⟩, commodity := x.commodity }
      else if xq.prec < yq.prec then
        .ok { quantity := some ⟨(bigint_resize xq yq.prec).val + yq.val, yq.prec⟩,
              commodity := x.commodity }
      else
        .ok { quantity := some ⟨xq.val + (bigint_resize yq xq.prec).val, xq.prec⟩,
              commodity := x.commodity }

/-- Embeds `amount_t::operator-=` (src/amount.cc:397-427); the absent
receiver case copies the operand's cell and negates it. -/
def amount_sub (x y : Amount) : Except AmountError Amount :=
  match y.quantity with
  | none => .ok x
  | some yq =>
    match x.quantity with
    | none => .ok { quantity := some ⟨-yq.val, yq.prec⟩, commodity := y.commodity }
    | some xq =>
      if x.commodity ≠ y.commodity then .error .CommodityMismatch
      else if xq.prec = yq.prec then
        .ok { quantity := some ⟨xq.val - yq.val, xq.prec⟩, commodity := x.commodity }
      else if xq.prec < yq.prec then
        .ok { quantity := some ⟨(bigint_resize xq yq.prec).val - yq.val, yq.prec⟩,
              commodity := x.commodity }
      else
        .ok { quantity := some ⟨xq.val - (bigint_resize yq xq.prec).val, xq.prec⟩,
              commodity := x.commodity }

/-- Embeds `amount_t::operator*=` (src/amount.cc:429-446): if either
quantity is absent the receiver is returned unchanged; otherwise
magnitudes multiply, scales add, and the result is rounded to
`commodity->precision + 6` when its scale exceeds that. -/
def amount_mul (r : Registry) (x y : Amount) : Amount :=
  match x.quantity, y.quantity with
  | some xq, some yq =>
    let v := xq.val * yq.val
    let p := xq.prec + yq.prec
    let cp := commodity_precision r x.commodity
    if p > cp + 6 then
      { quantity := some ⟨mpz_round v p (cp + 6), cp + 6⟩, commodity := x.commodity }
    else
      { quantity := some ⟨v, p⟩, commodity := x.commodity }
  | _, _ => x

/-- The result cell of a division with both quantities present
(src/amount.cc:455-468): multiply the dividend by
`10^(divisor.prec + 6)`, truncate-divide by the divisor's magnitude,
add 6 to the dividend scale, then round exactly as multiplication
does.  (`Int.tdiv` by a zero magnitude yields 0 here; in GMP that
division is undefined behaviour, not an `amount_error`.) -/
def div_bigint (r : Registry) (c : Option Nat) (xq yq : Bigint) : Bigint :=
  let v := Int.tdiv (xq.val * 10 ^ (yq.prec + 6)) yq.val
  let p := xq.prec + 6
  let cp := commodity_precision r c
  if p > cp + 6 then ⟨mpz_round v p (cp + 6), cp + 6⟩ else ⟨v, p⟩

/-- Embeds `amount_t::operator/=` (src/amount.cc:448-471).  The absent
receiver returns first; only then is an absent divisor reported as
"Divide by zero". -/
def amount_div (r : Registry) (x y : Amount) : Except AmountError Amount :=
  match x.quantity with
  | none => .ok x
  | some xq =>
    match y.quantity with
    | none => .error .DivideByZero
    | some yq =>
      .ok { quantity := some (div_bigint r x.commodity xq yq), commodity := x.commodity }

/-- Embeds `amount_t::negate` (src/amount.cc:474-480). -/
def amount_negate (a : Amount) : Amount :=
  match a.quantity with
  | none => a
  | some q => { quantity := some ⟨-q.val, q.prec⟩, commodity := a.commodity }

/-- Embeds `amount_t::round` (src/amount.cc:591-603). -/
def amount_round (a : Amount) (prec : Nat) : Amount :=
  match a.quantity with
  | none => a
  | some q =>
    if q.prec ≤ prec then a
    else { quantity := some ⟨mpz_round q.val q.prec prec, prec⟩, commodity := a.commodity }

/-- The five comparison operators instantiated by the
`AMOUNT_CMP_AMOUNT` / `AMOUNT_CMP_INT` macros. -/
inductive CmpOp where
  | lt
  | le
  | gt
  | ge
  | eq
deriving DecidableEq

/-- Applies `OP` to a comparison result and zero (`cmp OP 0`). -/
def int_cmp_op (op : CmpOp) (c : Int) : Bool :=
  match op with
  | .lt => decide (c < 0)
  | .le => decide (c ≤ 0)
  | .gt => decide (0 < c)
  | .ge => decide (0 ≤ c)
  | .eq => decide (c = 0)

/-- Result of `mpz_cmp`: negative, zero or positive according to the
sign of the difference. -/
def mpz_cmp (a b : Int) : Int := Int.sign (a - b)

/-- Embeds the `num == 0` branch of `AMOUNT_CMP_INT`
(src/amount.cc:494-510): `quantity ? mpz_sgn(quantity) OP 0 : false`.
The `num != 0` branch (print-and-reparse through `parse_num`) is not
needed by any claim and is not modelled. -/
def amount_cmp_zero (op : CmpOp) (x : Amount) : Bool :=
  match x.quantity with
  | none => false
  | some q => int_cmp_op op (Int.sign q.val)

/-- Embeds `AMOUNT_CMP_AMOUNT` (src/amount.cc:531-563).  An absent
left side returns `amt > 0` and an absent right side returns
`*this < 0` — the same expression for every operator `OP`.  With both
present, differing commodities away from the null commodity give
`false`; otherwise scales are equalized and magnitudes compared. -/
def amount_cmp (op : CmpOp) (x y : Amount) : Bool :=
  match x.quantity with
  | none => amount_cmp_zero CmpOp.gt y
  | some xq =>
    match y.quantity with
    | none => amount_cmp_zero CmpOp.lt x
    | some yq =>
      if x.commodity ≠ y.commodity ∧
         x.commodity ≠ some nullCommodityIdent ∧
         y.commodity ≠ some nullCommodityIdent then false
      else if xq.prec = yq.prec then
        int_cmp_op op (mpz_cmp xq.val yq.val)
      else if xq.prec < yq.prec then
        int_cmp_op op (mpz_cmp (bigint_resize xq yq.prec).val yq.val)
      else
        int_cmp_op op (mpz_cmp xq.val (bigint_resize yq xq.prec).val)

/-- Embeds `amount_t::operator bool` (src/amount.cc:565-580): true iff
the value truncated to the commodity's display precision is
non-zero. -/
def amount_bool (r : Registry) (a : Amount) : Bool :=
  match a.quantity with
  | none => false
  | some q =>
    let cp := commodity_precision r a.commodity
    if q.prec ≤ cp then decide (q.val ≠ 0)
    else decide (Int.tdiv q.val (10 ^ (q.prec - cp)) ≠ 0)

/-- Embeds `amount_t::value` (src/amount.cc:582-589).  The price
delivered by `commodity_t::value` (history walk plus the external
updater hook, src/amount.cc:1017-1036) is abstracted as the `price`
parameter, since the updater is an arbitrary external callback. -/
def amount_value (r : Registry) (a price : Amount) : Amount :=
  match a.quantity with
  | none => a
  | some _ =>
    if (commodity_flags r a.commodity).nomarket then a
    else if amount_bool r price then
      amount_round (amount_mul r price a) (commodity_precision r a.commodity)
    else a

/-- Embeds `amount_t::valid` (src/amount.cc:972-986): quantity present
without commodity, or commodity present without quantity, is invalid.
The refcount audit (`quantity->ref == 0`) is a memory-layout concern
and is not modelled. -/
def amount_valid (a : Amount) : Bool :=
  match a.quantity with
  | some _ => a.commodity.isSome
  | none => a.commodity.isNone

/-- Embeds `amount_t::amount_t(const bool)` (src/amount.cc:164-176):
true takes the shared `true_value` cell (value 1, scale 0) under the
null commodity; false yields the absent amount. -/
def amount_of_bool (b : Bool) : Amount :=
  if b then { quantity := some ⟨1, 0⟩, commodity := some nullCommodityIdent }
  else { quantity := none, commodity := none }

/-- Embeds `amount_t::amount_t(const int)` (src/amount.cc:178-190):
nonzero gives a fresh cell at scale 0 under the null commodity, zero
gives the absent amount. -/
def amount_of_int (n : Int) : Amount :=
  if n ≠ 0 then { quantity := some ⟨n, 0⟩, commodity := some nullCommodityIdent }
  else { quantity := none, commodity := none }

/-- Embeds `amount_t::amount_t(const unsigned int)`
(src/amount.cc:192-204). -/
def amount_of_uint (n : Nat) : Amount :=
  if n ≠ 0 then { quantity := some ⟨(n : Int), 0⟩, commodity := some nullCommodityIdent }
  else { quantity := none, commodity := none }

/-- Truncation toward zero of a rational, modelling `mpz_set_d`. -/
def rat_trunc_to_int (v : ℚ) : Int := Int.tdiv v.num (v.den : Int)

/-- Embeds `amount_t::amount_t(const double)` (src/amount.cc:206-219),
with the double modelled as a rational; `mpz_set_d` truncates toward
zero and the scale is left at 0 (the source's open `TODO`). -/
def amount_of_double (v : ℚ) : Amount :=
  if v ≠ 0 then
    { quantity := some ⟨rat_trunc_to_int v, 0⟩, commodity := some nullCommodityIdent }
  else { quantity := none, commodity := none }

/-- Modelled from the spec: `_clear` lives in the missing header
`amount.h`; per the spec, releasing the cell leaves both fields
absent ("Both-absent encodes no value"). -/
def amount_clear (_a : Amount) : Amount := { quantity := none, commodity := none }

/-- Embeds `amount_t::operator=(const amount_t&)`
(src/amount.cc:279-288): a present source is copied wholesale
(`_copy`), an absent source clears a present receiver, and an absent
source on an absent receiver leaves it untouched. -/
def amount_assign (a src : Amount) : Amount :=
  match src.quantity with
  | some _ => { quantity := src.quantity, commodity := src.commodity }
  | none =>
    match a.quantity with
    | some _ => amount_clear a
    | none => a

/-- Embeds `amount_t::operator=(const int)` (src/amount.cc:305-316).
Zero clears; nonzero interns under the null commodity and overwrites
the value via `mpz_set_si` — note that `_init` keeps the existing cell
when uniquely owned, so the receiver's previous scale persists. -/
def amount_assign_int (a : Amount) (n : Int) : Amount :=
  if n = 0 then
    match a.quantity with
    | some _ => amount_clear a
    | none => a
  else
    { quantity := some ⟨n, (a.quantity.getD ⟨0, 0⟩).prec⟩,
      commodity := some nullCommodityIdent }

/-- Embeds `amount_t::operator=(const unsigned int)`
(src/amount.cc:318-329); same scale-preserving behaviour as the int
case. -/
def amount_assign_uint (a : Amount) (n : Nat) : Amount :=
  if n = 0 then
    match a.quantity with
    | some _ => amount_clear a
    | none => a
  else
    { quantity := some ⟨(n : Int), (a.quantity.getD ⟨0, 0⟩).prec⟩,
      commodity := some nullCommodityIdent }

/-- Embeds `amount_t::operator=(const double)`
(src/amount.cc:331-343), with the double as a rational. -/
def amount_assign_double (a : Amount) (v : ℚ) : Amount :=
  if v = 0 then
    match a.quantity with
    | some _ => amount_clear a
    | none => a
  else
    { quantity := some ⟨rat_trunc_to_int v, (a.quantity.getD ⟨0, 0⟩).prec⟩,
      commodity := some nullCommodityIdent }

/-- Embeds `amount_t::operator=(const bool)` (src/amount.cc:290-303):
true installs the shared `true_value` cell (value 1, scale 0). -/
def amount_assign_bool (a : Amount) (b : Bool) : Amount :=
  if b then { quantity := some ⟨1, 0⟩, commodity := some nullCommodityIdent }
  else
    match a.quantity with
    | some _ => amount_clear a
    | none => a

/-- Whitespace test used by the reader (`std::isspace` on the
characters that occur in amounts). -/
def isWsChar (c : Char) : Bool :=
  c == ' ' || c == '\t' || c == '\n' || c == '\r'

/-- Modelled from the spec: `peek_next_nonws` lives in the missing
utility header; per the spec the reader is whitespace-tolerant on
entry, so leading whitespace is dropped. -/
def skipWs : List Char → List Char
  | [] => []
  | c :: rest => if isWsChar c then skipWs rest else c :: rest

/-- Modelled from the spec: the `READ_INTO` macro lives in the missing
utility header; it greedily reads characters satisfying the condition
(the 256-byte buffer cap is not modelled; newline handling is folded
into each call's condition). -/
def readWhile (p : Char → Bool) : List Char → List Char × List Char
  | [] => ([], [])
  | c :: rest =>
    if p c then
      let t := readWhile p rest
      (c :: t.1, t.2)
    else ([], c :: rest)

/-- Embeds `parse_quantity` (src/amount.cc:741-748): skip whitespace,
then read digits, minus signs, periods and commas. -/
def parse_quantity (s : List Char) : List Char × List Char :=
  readWhile (fun c => c.isDigit || c == '-' || c == '.' || c == ',') (skipWs s)

/-- Embeds `parse_commodity` (src/amount.cc:750-767): a quoted symbol
runs to the closing quote (missing quote is an error; `READ_INTO`
also stops at a newline), an unquoted one to the first whitespace,
digit, minus or period. -/
def parse_commodity (s : List Char) : Except AmountError (List Char × List Char) :=
  match skipWs s with
  | '"' :: rest =>
    let t := readWhile (fun c => c != '"' && c != '\n') rest
    match t.2 with
    | '"' :: r2 => .ok (t.1, r2)
    | _ => .error .ParseError
  | s1 => .ok (readWhile
      (fun c => !(isWsChar c) && !(c.isDigit) && c != '-' && c != '.') s1)

/-- The token-reading phase of `amount_t::parse`
(src/amount.cc:782-802): dispatch on the first non-whitespace
character; a leading digit, period or minus reads the number first
(symbol afterwards sets SUFFIXED, and SEPARATED when whitespace
intervenes), otherwise the symbol comes first.  Returns the style
flags accumulated so far, the symbol and the raw numeric token. -/
def parse_tokens (input : List Char) : Except AmountError (CFlags × List Char × List Char) :=
  match skipWs input with
  | [] =>
    match parse_commodity [] with
    | .error e => .error e
    | .ok (sym, s1) => .ok ({}, sym, (parse_quantity s1).1)
  | c :: rest =>
    if c.isDigit || c == '.' || c == '-' then
      let t := parse_quantity (c :: rest)
      match t.2 with
      | [] => .ok ({}, [], t.1)
      | n :: _ =>
        if n == '\n' then .ok ({}, [], t.1)
        else
          let fl : CFlags := if isWsChar n then { separated := true } else {}
          match parse_commodity t.2 with
          | .error e => .error e
          | .ok (sym, _) => .ok ({ fl with suffixed := true }, sym, t.1)
    else
      match parse_commodity (c :: rest) with
      | .error e => .error e
      | .ok (sym, s1) =>
        let fl : CFlags :=
          match s1 with
          | c2 :: _ => if isWsChar c2 then { separated := true } else {}
          | [] => {}
        .ok (fl, sym, (parse_quantity s1).1)

/-- Index of the last occurrence of a character (`std::string::rfind`). -/
def lastIdxOf (c : Char) : List Char → Option Nat
  | [] => none
  | x :: xs =>
    match lastIdxOf c xs with
    | some i => some (i + 1)
    | none => if x == c then some 0 else none

/-- Decimal digits to a natural number; models the success case of
`mpz_set_str` base 10 (failure on a malformed token leaves the GMP
value unspecified and is not modelled). -/
def digits2nat (s : List Char) : Nat :=
  s.foldl (fun acc c => acc * 10 + (c.toNat - 48)) 0

/-- Signed decimal token to an integer (`mpz_set_str`, base 10). -/
def str2int : List Char → Int
  | '-' :: rest => -(digits2nat rest : Int)
  | s => (digits2nat s : Int)

/-- Embeds `commodity_t::find_commodity` with `auto_create`
(src/amount.cc:1001-1015): look up by symbol; on a miss append a new
commodity with default style and return it. -/
def find_commodity (r : Registry) (sym : String) : Registry × Nat :=
  match r.comms.findIdx? (fun c => c.symbol == sym) with
  | some i => (r, i)
  | none => (⟨r.comms ++ [{ symbol := sym }]⟩, r.comms.length)

/-- In-place update of the commodity at an index (mutation through the
interned pointer). -/
def listModify (l : List Commodity) (i : Nat) (f : Commodity → Commodity) : List Commodity :=
  match l, i with
  | [], _ => []
  | x :: xs, 0 => f x :: xs
  | x :: xs, n + 1 => x :: listModify xs n f

/-- Result of a parse: the receiver's final state (also on error — the
source throws after `_init` has already installed a quantity cell),
the updated registry and the error if one was raised. -/
structure ParseResult where
  amt : Amount
  reg : Registry
  err : Option AmountError
deriving DecidableEq

/-- Embeds `amount_t::parse` (src/amount.cc:769-856).  `_init` first
ensures a quantity cell exists (retaining the old cell — and hence its
scale and value — when uniquely owned); if token reading throws, the
receiver is left in that state with its commodity untouched.  On
success the comma/period positions of the numeric token determine the
style flags and the scale, the commodity is interned and its flags and
precision raised, and the token with separators stripped becomes the
magnitude. -/
def amount_parse (reg : Registry) (a : Amount) (input : List Char) : ParseResult :=
  match parse_tokens input with
  | .error e =>
    { amt := { quantity := some (a.quantity.getD ⟨0, 0⟩), commodity := a.commodity },
      reg := reg, err := some e }
  | .ok (fl, sym, quant) =>
    let lc := lastIdxOf ',' quant
    let lp := lastIdxOf '.' quant
    let fp : CFlags × Nat :=
      match lc, lp with
      | some ic, some ip =>
        if ic > ip then
          ({ fl with thousands := true, european := true }, quant.length - ic - 1)
        else
          ({ fl with thousands := true }, quant.length - ip - 1)
      | some ic, none => ({ fl with european := true }, quant.length - ic - 1)
      | none, some ip => (fl, quant.length - ip - 1)
      | none, none => (fl, 0)
    let fr := find_commodity reg (String.mk sym)
    let reg2 : Registry := ⟨listModify fr.1.comms fr.2 (fun c =>
      let c1 := { c with flags := CFlags.orFlags c.flags fp.1 }
      if fp.2 > c1.precision then { c1 with precision := fp.2 } else c1)⟩
    let stripped := quant.filter (fun c => c != ',' && c != '.')
    { amt := { quantity := some ⟨str2int stripped, fp.2⟩, commodity := some fr.2 },
      reg := reg2, err := none }

/-- Decimal digit characters of a natural number (`mpz_get_str`,
base 10), via a fuel-bounded helper so the kernel can evaluate it. -/
def natDigitsAux : Nat → Nat → List Char
  | 0, _ => []
  | fuel + 1, n =>
    if n < 10 then [Char.ofNat (48 + n)]
    else natDigitsAux fuel (n / 10) ++ [Char.ofNat (48 + n % 10)]

/-- Decimal string of a natural number. -/
def natStr (n : Nat) : String := String.mk (natDigitsAux (n + 1) n)

/-- The integer-part groups collected by the THOUSANDS loop of the
formatter (src/amount.cc:675-690): base-1000 digits, least significant
first, always at least one group. -/
def groupsAux : Nat → Nat → List Nat
  | 0, _ => []
  | fuel + 1, q => if q < 1000 then [q] else q % 1000 :: groupsAux fuel (q / 1000)

/-- Base-1000 digits of a natural number, least significant first. -/
def groupsOf1000 (q : Nat) : List Nat := groupsAux (q + 1) q

/-- Left-pads a string with zeros (`out.width(w); out.fill('0')`). -/
def padLeftZeros (s : String) (w : Nat) : String :=
  if s.length < w then String.mk (List.replicate (w - s.length) '0') ++ s else s

/-- The symbol as emitted: double-quoted when the quote bit is set. -/
def symbolStr (c : Commodity) : String :=
  if c.quote then "\"" ++ c.symbol ++ "\"" else c.symbol

/-- Embeds `operator<<(std::ostream&, const amount_t&)`
(src/amount.cc:605-739).  An absent amount prints nothing.  The value
is brought to the commodity's display precision (rounding on the way
down, upscaling on the way up), split into integer quotient and
fractional remainder by truncated division, the sign noted and both
made non-negative; then symbol placement, thousands grouping and the
zero-padded fractional part follow the style flags. -/
def amount_format (r : Registry) (a : Amount) : String :=
  match a.quantity with
  | none => ""
  | some q =>
    let c : Commodity :=
      match a.commodity with
      | some i => r.comms.getD i { symbol := "" }
      | none => { symbol := "" }
    let qr : Int × Int :=
      if c.precision < q.prec then
        let rq := mpz_round q.val q.prec c.precision
        (Int.tdiv rq (10 ^ c.precision), Int.tmod rq (10 ^ c.precision))
      else if c.precision > q.prec then
        let rq := q.val * 10 ^ (c.precision - q.prec)
        (Int.tdiv rq (10 ^ c.precision), Int.tmod rq (10 ^ c.precision))
      else if q.prec ≠ 0 then
        (Int.tdiv q.val (10 ^ q.prec), Int.tmod q.val (10 ^ q.prec))
      else (q.val, 0)
    let negative : Bool := qr.1 < 0 || qr.2 < 0
    let qn : Nat := qr.1.natAbs
    let rn : Nat := qr.2.natAbs
    let symPre : String :=
      if !c.flags.suffixed then
        symbolStr c ++ (if c.flags.separated then " " else "")
      else ""
    let signStr : String := if negative then "-" else ""
    let intStr : String :=
      if qn = 0 then "0"
      else if !c.flags.thousands then natStr qn
      else
        match (groupsOf1000 qn).reverse with
        | [] => ""
        | g :: gs =>
          natStr g ++ String.join (gs.map (fun x =>
            (if c.flags.european then "." else ",") ++ padLeftZeros (natStr x) 3))
    let fracStr : String :=
      if c.precision ≠ 0 then
        (if c.flags.european then "," else ".") ++ padLeftZeros (natStr rn) c.precision
      else ""
    let symPost : String :=
      if c.flags.suffixed then
        (if c.flags.separated then " " else "") ++ symbolStr c
      else ""
    symPre ++ signStr ++ intStr ++ fracStr ++ symPost

/-- Decidable equality of operation outcomes. -/
instance : DecidableEq (Except AmountError Amount) :=
  fun x y =>
    match x, y with
    | .ok a, .ok b =>
      if h : a = b then .isTrue (by rw [h])
      else .isFalse (fun hc => h (Except.ok.inj hc))
    | .error a, .error b =>
      if h : a = b then .isTrue (by rw [h])
      else .isFalse (fun hc => h (Except.error.inj hc))
    | .ok _, .error _ => .isFalse (fun hc => Except.noConfusion hc)
    | .error _, .ok _ => .isFalse (fun hc => Except.noConfusion hc)

/-- Scenario S1: parsing `"$1,234.50"` on a fresh amount under a fresh
registry. -/
def s1_parse : ParseResult := amount_parse initRegistry {} "$1,234.50".toList

/-- Scenario S3, first parse: `"$10.00"` under a fresh registry. -/
def s3_parse1 : ParseResult := amount_parse initRegistry {} "$10.00".toList

/-- Scenario S3, second parse: `"$3.00"` under the registry produced by
the first parse. -/
def s3_parse2 : ParseResult := amount_parse s3_parse1.reg {} "$3.00".toList

/-- Scenario S3: the quotient `a / b` of the two parsed amounts. -/
def s3_quotient : Except AmountError Amount :=
  amount_div s3_parse2.reg s3_parse1.amt s3_parse2.amt

/-! ### Theorems -/

/-- C1 counterexample: at `value = -5`, `from_scale = 1`, `to_scale = 0`
the remainder is exactly `-half = -5`, yet `mpz_round` truncates to `0`
while rounding half away from zero — as the claim states for a
remainder `r ≤ -half` — would give `-1`; the positive mirror image `5`
does round away to `1`, so the two signs are not symmetric. -/
theorem mpz_round_neg_half_cex :
    mpz_round (-5) 1 0 = 0 ∧
    round_half_away_from_zero (-5) 1 0 = -1 ∧
    mpz_round (-5) 1 0 ≠ round_half_away_from_zero (-5) 1 0 ∧
    mpz_round 5 1 0 = 1 ∧
    round_half_away_from_zero 5 1 0 = 1 := by decide

/-- C1 amended: with `q`, `r` the toward-zero quotient and remainder of
`value` by `10^(from-to)` and `half = 5*10^(from-to-1)`, `mpz_round`
yields `q + 1` when `r ≥ half` (hence `r > 0`), `q - 1` when
`r < -half` strictly, and `q` otherwise — so a remainder of exactly
`-half` is discarded (rounds toward zero), not away from zero. -/
theorem mpz_round_characterization (value : Int) (vp rp : Nat) :
    mpz_round value vp rp =
      (if Int.tmod value (10 ^ (vp - rp)) < 0 then
        if Int.tmod value (10 ^ (vp - rp)) < -(5 * 10 ^ (vp - rp - 1)) then
          Int.tdiv value (10 ^ (vp - rp)) - 1
        else Int.tdiv value (10 ^ (vp - rp))
      else
        if 5 * 10 ^ (vp - rp - 1) ≤ Int.tmod value (10 ^ (vp - rp)) then
          Int.tdiv value (10 ^ (vp - rp)) + 1
        else Int.tdiv value (10 ^ (vp - rp))) := by
  have hd0 : ((10 : Int) ^ (vp - rp)) ≠ 0 := pow_ne_zero _ (by norm_num)
  have hid : (10 : Int) ^ (vp - rp) * Int.tdiv value ((10 : Int) ^ (vp - rp)) +
      Int.tmod value ((10 : Int) ^ (vp - rp)) = value := Int.tdiv_add_tmod value _
  have key : ∀ k : Int,
      Int.tdiv ((10 : Int) ^ (vp - rp) * k) ((10 : Int) ^ (vp - rp)) = k :=
    fun k => Int.mul_tdiv_cancel_left k hd0
  simp only [mpz_round]
  split_ifs with h1 h2 h3
  · rw [show value + -((10 : Int) ^ (vp - rp) + Int.tmod value ((10 : Int) ^ (vp - rp))) =
        (10 : Int) ^ (vp - rp) * (Int.tdiv value ((10 : Int) ^ (vp - rp)) - 1) by
      linear_combination -hid]
    exact key _
  · rw [show value - Int.tmod value ((10 : Int) ^ (vp - rp)) =
        (10 : Int) ^ (vp - rp) * Int.tdiv value ((10 : Int) ^ (vp - rp)) by
      linear_combination -hid]
    exact key _
  · rw [show value + ((10 : Int) ^ (vp - rp) - Int.tmod value ((10 : Int) ^ (vp - rp))) =
        (10 : Int) ^ (vp - rp) * (Int.tdiv value ((10 : Int) ^ (vp - rp)) + 1) by
      linear_combination -hid]
    exact key _
  · rw [show value - Int.tmod value ((10 : Int) ^ (vp - rp)) =
        (10 : Int) ^ (vp - rp) * Int.tdiv value ((10 : Int) ^ (vp - rp)) by
      linear_combination -hid]
    exact key _

/-- C2 counterexample: dividing an absent amount by an absent amount
returns the receiver unchanged and raises nothing, although the
divisor's quantity is absent — the claimed "iff" fails. -/
theorem amount_div_absent_dividend_cex :
    amount_div initRegistry { quantity := none, commodity := none }
        { quantity := none, commodity := none } =
      .ok { quantity := none, commodity := none } ∧
    ¬ amount_div initRegistry { quantity := none, commodity := none }
        { quantity := none, commodity := none } =
      .error .DivideByZero := by decide

/-- C2 amended: division raises `DivideByZero` exactly when the
dividend's quantity is present and the divisor's is absent; an absent
dividend is returned unchanged without consulting the divisor; with
both present the result is the dividend magnitude multiplied by
`10^(divisor scale + 6)` and truncate-divided by the divisor
magnitude, at the dividend scale plus 6, rounded to commodity
precision + 6 when that scale exceeds it (`div_bigint`). -/
theorem amount_div_error_characterization (r : Registry) (x y : Amount) :
    (amount_div r x y = .error .DivideByZero ↔
      x.quantity.isSome = true ∧ y.quantity = none) ∧
    (x.quantity = none → amount_div r x y = .ok x) ∧
    (∀ xq yq, x.quantity = some xq → y.quantity = some yq →
      amount_div r x y =
        .ok { quantity := some (div_bigint r x.commodity xq yq),
              commodity := x.commodity }) := by
  obtain ⟨xqo, xc⟩ := x
  obtain ⟨yqo, yc⟩ := y
  cases xqo <;> cases yqo <;> simp [amount_div]

/-- Witness for the C2 theorem at concrete inputs: present ÷ absent
raises, absent ÷ present returns the dividend, present ÷ present
divides. -/
theorem amount_div_error_characterization_witness :
    amount_div initRegistry { quantity := some ⟨10, 0⟩, commodity := some 0 }
        { quantity := none, commodity := none } = .error .DivideByZero ∧
    amount_div initRegistry { quantity := none, commodity := none }
        { quantity := some ⟨3, 0⟩, commodity := some 0 } =
      .ok { quantity := none, commodity := none } ∧
    amount_div initRegistry { quantity := some ⟨10, 0⟩, commodity := some 0 }
        { quantity := some ⟨3, 0⟩, commodity := some 0 } =
      .ok { quantity := some (div_bigint initRegistry (some 0) ⟨10, 0⟩ ⟨3, 0⟩),
            commodity := some 0 } :=
  ⟨(amount_div_error_characterization initRegistry _ _).1.mpr ⟨rfl, rfl⟩,
   (amount_div_error_characterization initRegistry _ _).2.1 rfl,
   (amount_div_error_characterization initRegistry _ _).2.2 _ _ rfl rfl⟩

/-- C3 counterexample: adding (or subtracting) an integer amount — whose
commodity is the null commodity — and a `$`-commodity amount raises
`CommodityMismatch`, although one of the two commodities is the null
commodity and the claim says the operation then must not raise. -/
theorem amount_add_null_commodity_mismatch_cex :
    amount_add { quantity := some ⟨5, 0⟩, commodity := some nullCommodityIdent }
        { quantity := some ⟨100, 2⟩, commodity := some 1 } =
      .error .CommodityMismatch ∧
    amount_sub { quantity := some ⟨5, 0⟩, commodity := some nullCommodityIdent }
        { quantity := some ⟨100, 2⟩, commodity := some 1 } =
      .error .CommodityMismatch := by decide

/-- C3 amended: addition and subtraction of two amounts whose
quantities are both present raise `CommodityMismatch` exactly when the
two commodity pointers differ — with no exemption for the null
commodity. -/
theorem amount_add_sub_mismatch_iff (x y : Amount) (xq yq : Bigint)
    (hx : x.quantity = some xq) (hy : y.quantity = some yq) :
    (amount_add x y = .error .CommodityMismatch ↔ x.commodity ≠ y.commodity) ∧
    (amount_sub x y = .error .CommodityMismatch ↔ x.commodity ≠ y.commodity) := by
  obtain ⟨xqo, xc⟩ := x
  obtain ⟨yqo, yc⟩ := y
  cases hx
  cases hy
  constructor
  · simp only [amount_add]
    split_ifs with h1 h2 h3 <;> simp [h1]
  · simp only [amount_sub]
    split_ifs with h1 h2 h3 <;> simp [h1]

/-- Witness for the C3 theorem: equal commodities add without error,
differing ones (one of them null) raise. -/
theorem amount_add_sub_mismatch_iff_witness :
    amount_add { quantity := some ⟨5, 0⟩, commodity := some 0 }
        { quantity := some ⟨7, 0⟩, commodity := some 0 } ≠
      .error .CommodityMismatch ∧
    amount_add { quantity := some ⟨5, 0⟩, commodity := some 0 }
        { quantity := some ⟨100, 2⟩, commodity := some 1 } =
      .error .CommodityMismatch :=
  ⟨fun h => (amount_add_sub_mismatch_iff _ _ ⟨5, 0⟩ ⟨7, 0⟩ rfl rfl).1.mp h rfl,
   (amount_add_sub_mismatch_iff _ _ ⟨5, 0⟩ ⟨100, 2⟩ rfl rfl).1.mpr (by decide)⟩

/-- C4 counterexample: the comparisons do not treat an absent quantity
as zero.  `absent ≥ y` is `true` for positive `y` (the claim demands
`false`), while `0 ≥ 1` on present amounts is `false`; and
`absent == y` is `false` for a zero-valued `y` (the claim demands
equality) although `0 == 0` on present amounts is `true`. -/
theorem amount_cmp_absent_cex :
    amount_cmp .ge { quantity := none, commodity := none }
      { quantity := some ⟨1, 0⟩, commodity := some 0 } = true ∧
    amount_cmp .ge { quantity := some ⟨0, 0⟩, commodity := some 0 }
      { quantity := some ⟨1, 0⟩, commodity := some 0 } = false ∧
    amount_cmp .eq { quantity := none, commodity := none }
      { quantity := some ⟨0, 0⟩, commodity := some 0 } = false ∧
    amount_cmp .eq { quantity := some ⟨0, 0⟩, commodity := some 0 }
      { quantity := some ⟨0, 0⟩, commodity := some 0 } = true := by decide

/-- C4 amended: for every comparison operator `OP`, `absent OP y`
evaluates to `y > 0` (the sign test against integer zero) and
`x OP absent` evaluates to `x < 0` — the operator itself is ignored on
those paths, so absent does not behave as the value zero. -/
theorem amount_cmp_absent_characterization (op : CmpOp) (c : Option Nat) :
    (∀ y : Amount,
      amount_cmp op { quantity := none, commodity := c } y =
        amount_cmp_zero CmpOp.gt y) ∧
    (∀ x : Amount,
      amount_cmp op x { quantity := none, commodity := c } =
        amount_cmp_zero CmpOp.lt x) := by
  constructor
  · intro y
    rfl
  · intro x
    obtain ⟨xq, xc⟩ := x
    cases xq <;> rfl

/-- C7 confirmed: with both quantities present and the two commodities
distinct interned objects, neither the null commodity, every
comparison operator returns `false`. -/
theorem amount_cmp_incomparable (op : CmpOp) (x y : Amount) (xq yq : Bigint)
    (cx cy : Nat) (hx : x.quantity = some xq) (hy : y.quantity = some yq)
    (hcx : x.commodity = some cx) (hcy : y.commodity = some cy)
    (hne : cx ≠ cy) (hnx : cx ≠ nullCommodityIdent) (hny : cy ≠ nullCommodityIdent) :
    amount_cmp op x y = false := by
  obtain ⟨xqo, xc⟩ := x
  obtain ⟨yqo, yc⟩ := y
  cases hx
  cases hy
  cases hcx
  cases hcy
  simp [amount_cmp, hne, hnx, hny]

/-- Witness for the C7 theorem: a `$` amount and a `EUR` amount (idents
1 and 2, both distinct from the null commodity 0) compare `false`. -/
theorem amount_cmp_incomparable_witness :
    amount_cmp CmpOp.lt { quantity := some ⟨100, 2⟩, commodity := some 1 }
      { quantity := some ⟨100, 2⟩, commodity := some 2 } = false :=
  amount_cmp_incomparable CmpOp.lt _ _ ⟨100, 2⟩ ⟨100, 2⟩ 1 2 rfl rfl rfl rfl
    (by decide) (by decide) (by decide)

/-- C5 counterexample: the quotient of `"$10.00"` by `"$3.00"` has
scale `2 + 6 = 8` and magnitude `333333333` — not the claimed scale
`0 + 6 = 6` with magnitude `3333333` (the dividend's scale 2, not 0,
enters the sum, and `10^11 tdiv 300 = 333333333`). -/
theorem div_scenario_scale_cex :
    s3_quotient = .ok { quantity := some ⟨333333333, 8⟩, commodity := some 1 } ∧
    ¬ s3_quotient = .ok { quantity := some ⟨3333333, 6⟩, commodity := some 1 } := by
  decide

/-- C5 amended: parsing `"$10.00"` and `"$3.00"` gives magnitudes 1000
and 300 at scale 2 under the interned `$` commodity; the quotient has
scale `2 + 6 = 8` and magnitude `333333333`; formatting it at the
commodity's display precision 2 produces exactly `"$3.33"`. -/
theorem div_scenario_amended :
    s3_parse1.amt = { quantity := some ⟨1000, 2⟩, commodity := some 1 } ∧
    s3_parse2.amt = { quantity := some ⟨300, 2⟩, commodity := some 1 } ∧
    s3_quotient = .ok { quantity := some ⟨333333333, 8⟩, commodity := some 1 } ∧
    amount_format s3_parse2.reg
      { quantity := some ⟨333333333, 8⟩, commodity := some 1 } = "$3.33" := by
  decide

/-- C6 confirmed (scenario S1): parsing `"$1,234.50"` under a fresh
registry yields magnitude 123450 at scale 2 under the freshly interned
commodity `$` (ident 1, the only commodity besides the null one),
whose style is prefixed, not separated, not European, THOUSANDS set
and precision raised to 2; formatting the result reproduces
`"$1,234.50"` exactly. -/
theorem parse_format_scenario_s1 :
    s1_parse.err = none ∧
    s1_parse.amt = { quantity := some ⟨123450, 2⟩, commodity := some 1 } ∧
    s1_parse.reg.comms.length = 2 ∧
    s1_parse.reg.comms.getD 1 { symbol := "" } =
      { symbol := "$", quote := false, precision := 2,
        flags := { thousands := true } } ∧
    amount_format s1_parse.reg s1_parse.amt = "$1,234.50" := by
  decide

/-- C9 confirmed: multiplying any amount by an amount whose quantity is
absent returns the receiver completely unchanged — absent is a
multiplicative identity (the operator returns before touching
magnitude, scale or commodity), unlike the zero that absent denotes
for addition and comparison. -/
theorem amount_mul_absent_identity (r : Registry) (a : Amount) (cb : Option Nat) :
    amount_mul r a { quantity := none, commodity := cb } = a := by
  obtain ⟨aq, ac⟩ := a
  cases aq <;> rfl

/-- C10 counterexample: assigning the nonzero integer 5 into an amount
whose cell has scale 2 keeps that scale (the cell is reused by `_init`
and `operator=(int)` never resets `prec`), so the result is not at
scale 0 as the claim states. -/
theorem amount_assign_int_scale_cex :
    amount_assign_int { quantity := some ⟨150, 2⟩, commodity := some 1 } 5 =
      { quantity := some ⟨5, 2⟩, commodity := some nullCommodityIdent } ∧
    ¬ amount_assign_int { quantity := some ⟨150, 2⟩, commodity := some 1 } 5 =
      { quantity := some ⟨5, 0⟩, commodity := some nullCommodityIdent } := by
  decide

/-- C10 amended: constructing from integer 0, unsigned 0, double 0.0 or
false yields the absent amount (both fields absent, identical to the
uninitialized amount), and assigning any of these into a valid amount
clears it to the absent amount; construction from a nonzero integer,
unsigned or true yields a present cell at scale 0 under the null
commodity, and so does assigning true; but assigning a nonzero integer
into an existing amount keeps the receiver's existing cell scale
(scale 0 only when no cell was present). -/
theorem amount_zero_construction_characterization :
    amount_of_int 0 = { quantity := none, commodity := none } ∧
    amount_of_uint 0 = { quantity := none, commodity := none } ∧
    amount_of_double 0 = { quantity := none, commodity := none } ∧
    amount_of_bool false = { quantity := none, commodity := none } ∧
    (∀ a : Amount, amount_valid a = true →
      amount_assign_int a 0 = { quantity := none, commodity := none } ∧
      amount_assign_uint a 0 = { quantity := none, commodity := none } ∧
      amount_assign_double a 0 = { quantity := none, commodity := none } ∧
      amount_assign_bool a false = { quantity := none, commodity := none }) ∧
    (∀ n : Int, n ≠ 0 →
      amount_of_int n =
        { quantity := some ⟨n, 0⟩, commodity := some nullCommodityIdent }) ∧
    (∀ n : Nat, n ≠ 0 →
      amount_of_uint n =
        { quantity := some ⟨(n : Int), 0⟩, commodity := some nullCommodityIdent }) ∧
    amount_of_bool true =
      { quantity := some ⟨1, 0⟩, commodity := some nullCommodityIdent } ∧
    (∀ a : Amount, amount_assign_bool a true =
      { quantity := some ⟨1, 0⟩, commodity := some nullCommodityIdent }) ∧
    (∀ a : Amount, ∀ n : Int, n ≠ 0 →
      amount_assign_int a n =
        { quantity := some ⟨n, (a.quantity.getD ⟨0, 0⟩).prec⟩,
          commodity := some nullCommodityIdent }) := by
  refine ⟨rfl, rfl, rfl, rfl, ?_, ?_, ?_, rfl, fun a => rfl, ?_⟩
  · intro a ha
    obtain ⟨aq, ac⟩ := a
    cases aq with
    | none =>
      cases ac with
      | none => exact ⟨rfl, rfl, rfl, rfl⟩
      | some i => simp [amount_valid] at ha
    | some q => exact ⟨rfl, rfl, rfl, rfl⟩
  · intro n hn
    simp [amount_of_int, hn]
  · intro n hn
    simp [amount_of_uint, hn]
  · intro a n hn
    simp [amount_assign_int, hn]

/-- Witness for the C10 theorem: clearing a valid one-dollar-style
amount with integer 0, and assigning nonzero 7 into a fresh amount,
both behave as characterized. -/
theorem amount_zero_construction_characterization_witness :
    amount_assign_int { quantity := some ⟨150, 2⟩, commodity := some 0 } 0 =
      { quantity := none, commodity := none } ∧
    amount_of_int 7 =
      { quantity := some ⟨7, 0⟩, commodity := some nullCommodityIdent } ∧
    amount_assign_int { quantity := none, commodity := none } 7 =
      { quantity := some ⟨7, 0⟩, commodity := some nullCommodityIdent } :=
  ⟨(amount_zero_construction_characterization.2.2.2.2.1 _ (by decide)).1,
   amount_zero_construction_characterization.2.2.2.2.2.1 7 (by decide),
   amount_zero_construction_characterization.2.2.2.2.2.2.2.2.2 _ 7 (by decide)⟩

/-- Multiplication preserves validity of the receiver: the result keeps
the receiver's commodity (or is the receiver itself). -/
theorem valid_mul_helper (r : Registry) (x y : Amount)
    (hx : amount_valid x = true) : amount_valid (amount_mul r x y) = true := by
  obtain ⟨xq, xc⟩ := x
  obtain ⟨yq, yc⟩ := y
  cases xq with
  | none => cases yq <;> simpa [amount_mul] using hx
  | some q =>
    cases yq with
    | none => simpa [amount_mul] using hx
    | some q2 =>
      simp only [amount_mul]
      split_ifs <;> simpa [amount_valid] using hx

/-- Rounding preserves validity: the commodity field is untouched. -/
theorem valid_round_helper (a : Amount) (p : Nat)
    (ha : amount_valid a = true) : amount_valid (amount_round a p) = true := by
  obtain ⟨aq, ac⟩ := a
  cases aq with
  | none => exact ha
  | some q =>
    simp only [amount_round]
    split_ifs <;> simpa [amount_valid] using ha

/-- C8 counterexample: parsing the malformed input `"X` (an unterminated
quoted symbol) on a fresh amount aborts with a parse error after
`_init` has already installed a quantity cell but before any commodity
was assigned, leaving the receiver with a present quantity and an
absent commodity — `valid()` is false. -/
theorem parse_abort_invalid_cex :
    (amount_parse initRegistry { quantity := none, commodity := none }
        "\"X".toList).err = some AmountError.ParseError ∧
    (amount_parse initRegistry { quantity := none, commodity := none }
        "\"X".toList).amt =
      { quantity := some ⟨0, 0⟩, commodity := none } ∧
    amount_valid (amount_parse initRegistry { quantity := none, commodity := none }
        "\"X".toList).amt = false := by decide

/-- C8 amended: construction, assignment, the arithmetic operators,
negate, round, valuation, and every parse that succeeds preserve
`quantity present ⇔ commodity present` (valid inputs give valid
outputs, and a successful parse gives a valid result
unconditionally); the exception is a parse that aborts with an error,
which can leave a fresh receiver with a quantity cell and no
commodity. -/
theorem amount_ops_preserve_valid :
    (∀ b : Bool, amount_valid (amount_of_bool b) = true) ∧
    (∀ n : Int, amount_valid (amount_of_int n) = true) ∧
    (∀ n : Nat, amount_valid (amount_of_uint n) = true) ∧
    (∀ v : ℚ, amount_valid (amount_of_double v) = true) ∧
    (∀ a src : Amount, amount_valid a = true → amount_valid src = true →
      amount_valid (amount_assign a src) = true) ∧
    (∀ a : Amount, ∀ n : Int, amount_valid a = true →
      amount_valid (amount_assign_int a n) = true) ∧
    (∀ a : Amount, ∀ n : Nat, amount_valid a = true →
      amount_valid (amount_assign_uint a n) = true) ∧
    (∀ a : Amount, ∀ v : ℚ, amount_valid a = true →
      amount_valid (amount_assign_double a v) = true) ∧
    (∀ a : Amount, ∀ b : Bool, amount_valid a = true →
      amount_valid (amount_assign_bool a b) = true) ∧
    (∀ x y res : Amount, amount_valid x = true → amount_valid y = true →
      amount_add x y = .ok res → amount_valid res = true) ∧
    (∀ x y res : Amount, amount_valid x = true → amount_valid y = true →
      amount_sub x y = .ok res → amount_valid res = true) ∧
    (∀ r : Registry, ∀ x y : Amount, amount_valid x = true → amount_valid y = true →
      amount_valid (amount_mul r x y) = true) ∧
    (∀ r : Registry, ∀ x y res : Amount, amount_valid x = true →
      amount_div r x y = .ok res → amount_valid res = true) ∧
    (∀ a : Amount, amount_valid a = true → amount_valid (amount_negate a) = true) ∧
    (∀ a : Amount, ∀ p : Nat, amount_valid a = true →
      amount_valid (amount_round a p) = true) ∧
    (∀ r : Registry, ∀ a price : Amount, amount_valid a = true →
      amount_valid price = true → amount_valid (amount_value r a price) = true) ∧
    (∀ reg : Registry, ∀ a : Amount, ∀ input : List Char,
      (amount_parse reg a input).err = none →
      amount_valid (amount_parse reg a input).amt = true) := by
  refine ⟨?_, ?_, ?_, ?_, ?_, ?_, ?_, ?_, ?_, ?_, ?_, ?_, ?_, ?_, ?_, ?_, ?_⟩
  · intro b
    cases b <;> rfl
  · intro n
    unfold amount_of_int
    split_ifs <;> rfl
  · intro n
    unfold amount_of_uint
    split_ifs <;> rfl
  · intro v
    unfold amount_of_double
    split_ifs <;> rfl
  · intro a src ha hs
    obtain ⟨sq, sc⟩ := src
    cases sq with
    | some q => simpa [amount_assign, amount_valid] using hs
    | none =>
      obtain ⟨aq, ac⟩ := a
      cases aq with
      | some q => rfl
      | none => exact ha
  · intro a n ha
    unfold amount_assign_int
    split_ifs with h
    · obtain ⟨aq, ac⟩ := a
      cases aq with
      | some q => rfl
      | none => exact ha
    · rfl
  · intro a n ha
    unfold amount_assign_uint
    split_ifs with h
    · obtain ⟨aq, ac⟩ := a
      cases aq with
      | some q => rfl
      | none => exact ha
    · rfl
  · intro a v ha
    unfold amount_assign_double
    split_ifs with h
    · obtain ⟨aq, ac⟩ := a
      cases aq with
      | some q => rfl
      | none => exact ha
    · rfl
  · intro a b ha
    cases b with
    | true => rfl
    | false =>
      obtain ⟨aq, ac⟩ := a
      cases aq with
      | some q => rfl
      | none => exact ha
  · intro x y res hx hy hadd
    obtain ⟨xq, xc⟩ := x
    obtain ⟨yq, yc⟩ := y
    cases yq with
    | none =>
      simp only [amount_add, Except.ok.injEq] at hadd
      subst hadd
      exact hx
    | some b =>
      cases xq with
      | none =>
        simp only [amount_add, Except.ok.injEq] at hadd
        subst hadd
        simpa [amount_valid] using hy
      | some a2 =>
        simp only [amount_add] at hadd
        split_ifs at hadd <;> simp only [Except.ok.injEq, reduceCtorEq] at hadd <;>
          first
            | exact hadd.elim
            | (subst hadd; simpa [amount_valid] using hx)
  · intro x y res hx hy hsub
    obtain ⟨xq, xc⟩ := x
    obtain ⟨yq, yc⟩ := y
    cases yq with
    | none =>
      simp only [amount_sub, Except.ok.injEq] at hsub
      subst hsub
      exact hx
    | some b =>
      cases xq with
      | none =>
        simp only [amount_sub, Except.ok.injEq] at hsub
        subst hsub
        simpa [amount_valid] using hy
      | some a2 =>
        simp only [amount_sub] at hsub
        split_ifs at hsub <;> simp only [Except.ok.injEq, reduceCtorEq] at hsub <;>
          first
            | exact hsub.elim
            | (subst hsub; simpa [amount_valid] using hx)
  · intro r x y hx _
    exact valid_mul_helper r x y hx
  · intro r x y res hx hdiv
    obtain ⟨xq, xc⟩ := x
    obtain ⟨yq, yc⟩ := y
    cases xq with
    | none =>
      simp only [amount_div, Except.ok.injEq] at hdiv
      subst hdiv
      exact hx
    | some a2 =>
      cases yq with
      | none => exact absurd hdiv (by simp [amount_div])
      | some b2 =>
        simp only [amount_div, Except.ok.injEq] at hdiv
        subst hdiv
        simpa [amount_valid] using hx
  · intro a ha
    obtain ⟨aq, ac⟩ := a
    cases aq with
    | none => exact ha
    | some q => simpa [amount_negate, amount_valid] using ha
  · intro a p ha
    exact valid_round_helper a p ha
  · intro r a price ha hp
    obtain ⟨aq, ac⟩ := a
    cases aq with
    | none => exact ha
    | some q =>
      simp only [amount_value]
      split_ifs with h1 h2
      · exact ha
      · exact valid_round_helper _ _ (valid_mul_helper r price _ hp)
      · exact ha
  · intro reg a input h
    cases hp : parse_tokens input with
    | error e => simp [amount_parse, hp] at h
    | ok t =>
      obtain ⟨fl, sym, quant⟩ := t
      simp [amount_parse, hp, amount_valid]

/-- Witness for the C8 theorem: a concrete addition of two integer
amounts yields a valid amount, and the successful parse of
`"$1,234.50"` yields a valid amount. -/
theorem amount_ops_preserve_valid_witness :
    amount_valid { quantity := some (⟨5, 0⟩ : Bigint), commodity := some 0 } = true ∧
    amount_valid (amount_parse initRegistry { quantity := none, commodity := none }
      "$1,234.50".toList).amt = true :=
  ⟨amount_ops_preserve_valid.2.2.2.2.2.2.2.2.2.1
     { quantity := some ⟨2, 0⟩, commodity := some 0 }
     { quantity := some ⟨3, 0⟩, commodity := some 0 }
     { quantity := some ⟨5, 0⟩, commodity := some 0 }
     (by decide) (by decide) (by decide),
   amount_ops_preserve_valid.2.2.2.2.2.2.2.2.2.2.2.2.2.2.2.2
     initRegistry { quantity := none, commodity := none }
     "$1,234.50".toList (by decide)⟩
